import Mathlib

/-!
Verification development for the EDGAR client (`edgar_client/client.py`).

The embedding models the filing-history pipeline:
* `parseRecord` / `parseLoop` / `parseFilings` embed `EDGARClient._parse_filings`
  (the column-to-row normalizer over a parallel-array block);
* `getFilingsRaw` / `filterStage` / `getFilings` embed `EDGARClient.get_filings`
  (pagination aggregation and the date/form/limit filter stage);
* `strptimeDate` / `strptimeTz` embed the two `datetime.strptime` format strings
  used by the normalizer (`%Y-%m-%d` and `%Y-%m-%dT%H:%M:%S%z`), following the
  regular expressions CPython's `_strptime` builds for these directives and the
  range checks of the `datetime` constructor;
* `pyInt` / `fmt010d` embed `int(cik)` and the `f"{...:010d}"` format used to
  normalize the CIK identifier.

Arrays of the parallel-array block are typed as the upstream document shape
declares them (string arrays for textual fields, integer arrays for `size`
and the XBRL flags); the dictionary keys may each be absent.  The exception
class caught by the normalizer's per-record handler, `(KeyError, IndexError,
ValueError)`, is modelled by `PErr`.
-/

namespace Edgar

/-- ASCII digit test, as in the character classes of CPython's strptime regexes. -/
def isDig (c : Char) : Bool := '0' ≤ c && c ≤ '9'

/-- Value of an ASCII digit character. -/
def dval (c : Char) : Nat := c.toNat - '0'.toNat

/-- The ten decimal digit characters. -/
def digitTable : List Char := ['0', '1', '2', '3', '4', '5', '6', '7', '8', '9']

/-- Decimal digit character for a value below ten. -/
def dchar (n : Nat) : Char := digitTable.getD n '0'

/-- Value of a decimal digit string (most significant first). -/
def decVal (cs : List Char) : Nat := cs.foldl (fun a c => a * 10 + dval c) 0

/-- A timezone-naive datetime, as produced by `datetime.strptime` without `%z`.
Microseconds are always zero for the formats the client uses. -/
structure NaiveDT where
  year : Nat
  month : Nat
  day : Nat
  hour : Nat
  minute : Nat
  second : Nat
deriving DecidableEq, Repr

/-- A timezone-aware datetime: naive fields plus a fixed UTC offset in minutes,
as produced by `datetime.strptime` with `%z`. -/
structure AwareDT where
  dt : NaiveDT
  offsetMinutes : Int
deriving DecidableEq, Repr

/-- Chronological strict order on naive datetimes (Python's `datetime.__lt__`
for naive values: lexicographic on the components). -/
def NaiveDT.blt (a b : NaiveDT) : Bool :=
  if a.year ≠ b.year then a.year < b.year
  else if a.month ≠ b.month then a.month < b.month
  else if a.day ≠ b.day then a.day < b.day
  else if a.hour ≠ b.hour then a.hour < b.hour
  else if a.minute ≠ b.minute then a.minute < b.minute
  else a.second < b.second

/-- Proleptic Gregorian leap-year test (`calendar.isleap`). -/
def isLeap (y : Nat) : Bool := (y % 4 == 0 && y % 100 != 0) || y % 400 == 0

/-- Days in a month, as validated by the `datetime` constructor. -/
def daysInMonth (y m : Nat) : Nat :=
  if m = 2 then (if isLeap y then 29 else 28)
  else if m = 4 ∨ m = 6 ∨ m = 9 ∨ m = 11 then 30
  else 31

/-- Days in the proleptic Gregorian calendar before January 1 of year `y`
(`datetime.date.toordinal` counts from year 1). -/
def daysBeforeYear (y : Nat) : Nat :=
  365 * (y - 1) + (y - 1) / 4 - (y - 1) / 100 + (y - 1) / 400

/-- Days of year `y` strictly before month `m`. -/
def daysBeforeMonth (y m : Nat) : Nat :=
  (List.range (m - 1)).foldl (fun a k => a + daysInMonth y (k + 1)) 0

/-- The instant an aware datetime denotes, as seconds relative to the epoch of
the proleptic ordinal count: wall-clock seconds minus the UTC offset.  Two
aware datetimes are the same instant iff these agree (Python aware-datetime
equality). -/
def AwareDT.instant (a : AwareDT) : Int :=
  ((daysBeforeYear a.dt.year + daysBeforeMonth a.dt.year a.dt.month
      + (a.dt.day - 1)) * 86400
    + a.dt.hour * 3600 + a.dt.minute * 60 + a.dt.second : Nat)
    - a.offsetMinutes * 60

/-- Match exactly four digits (the `%Y` directive: `\d\d\d\d`). -/
def take4 : List Char → Option (Nat × List Char)
  | a :: b :: c :: d :: rest =>
    if isDig a && isDig b && isDig c && isDig d then
      some (1000 * dval a + 100 * dval b + 10 * dval c + dval d, rest)
    else none
  | _ => none

/-- Match the `%m` directive: `1[0-2]|0[1-9]|[1-9]` — a two-digit month
01..12, else a single digit 1..9. -/
def takeMonth : List Char → Option (Nat × List Char)
  | a :: b :: rest =>
    if isDig a && isDig b && 1 ≤ 10 * dval a + dval b && 10 * dval a + dval b ≤ 12 then
      some (10 * dval a + dval b, rest)
    else if isDig a && 1 ≤ dval a then some (dval a, b :: rest)
    else none
  | [a] => if isDig a && 1 ≤ dval a then some (dval a, []) else none
  | [] => none

/-- Match the `%d` directive: `3[01]|[12]\d|0[1-9]|[1-9]` — a two-digit day
01..31, else a single digit 1..9. -/
def takeDay : List Char → Option (Nat × List Char)
  | a :: b :: rest =>
    if isDig a && isDig b && 1 ≤ 10 * dval a + dval b && 10 * dval a + dval b ≤ 31 then
      some (10 * dval a + dval b, rest)
    else if isDig a && 1 ≤ dval a then some (dval a, b :: rest)
    else none
  | [a] => if isDig a && 1 ≤ dval a then some (dval a, []) else none
  | [] => none

/-- Match the `%H` directive: `2[0-3]|[0-1]\d|\d` — a two-digit hour 00..23,
else a single digit. -/
def takeHour : List Char → Option (Nat × List Char)
  | a :: b :: rest =>
    if isDig a && isDig b && 10 * dval a + dval b ≤ 23 then
      some (10 * dval a + dval b, rest)
    else if isDig a then some (dval a, b :: rest)
    else none
  | [a] => if isDig a then some (dval a, []) else none
  | [] => none

/-- Match the `%M`/`%S` two-or-one digit directives (`[0-5]\d|\d`; the 60/61
leap-second alternative of `%S` is rejected by the `datetime` constructor
anyway, so both paths agree on a ValueError). -/
def takeMS : List Char → Option (Nat × List Char)
  | a :: b :: rest =>
    if isDig a && isDig b && 10 * dval a + dval b ≤ 59 then
      some (10 * dval a + dval b, rest)
    else if isDig a then some (dval a, b :: rest)
    else none
  | [a] => if isDig a then some (dval a, []) else none
  | [] => none

/-- Match a literal character of the format string. -/
def lit (c : Char) : List Char → Option (List Char)
  | x :: rest => if x = c then some rest else none
  | [] => none

/-- Match the `%z` directive on the shapes the client meets: `Z`, or a sign,
two hour digits, an optional colon, and two minute digits `[0-5]\d`; the
resulting offset must lie strictly inside a day (`datetime.timezone` bound). -/
def takeTz : List Char → Option (Int × List Char)
  | 'Z' :: rest => some (0, rest)
  | s :: a :: b :: rest =>
    if s = '+' ∨ s = '-' then
      if isDig a && isDig b then
        let hh := 10 * dval a + dval b
        let finish : List Char → Option (Int × List Char) := fun cs =>
          match cs with
          | c :: d :: rest' =>
            if isDig c && isDig d && 10 * dval c + dval d ≤ 59 then
              let off : Int := (hh * 60 + (10 * dval c + dval d) : Nat)
              if hh * 60 + (10 * dval c + dval d) < 1440 then
                some (if s = '-' then -off else off, rest')
              else none
            else none
          | _ => none
        match rest with
        | ':' :: rest' => finish rest'
        | _ => finish rest
      else none
    else none
  | _ => none

/-- Parse `YYYY-MM-DD` (the date part shared by both format strings). -/
def dateChain (cs : List Char) : Option (Nat × Nat × Nat × List Char) := do
  let (y, cs) ← take4 cs
  let cs ← lit '-' cs
  let (m, cs) ← takeMonth cs
  let cs ← lit '-' cs
  let (d, cs) ← takeDay cs
  pure (y, m, d, cs)

/-- Range validation performed by the `datetime` constructor on the matched
fields (year ≥ 1, day within the month; the regexes already bound the rest). -/
def mkNaive (y m d hh mi ss : Nat) : Option NaiveDT :=
  if 1 ≤ y ∧ 1 ≤ m ∧ m ≤ 12 ∧ 1 ≤ d ∧ d ≤ daysInMonth y m then
    some ⟨y, m, d, hh, mi, ss⟩
  else none

/-- Per-record errors the normalizer's handler catches:
`except (KeyError, IndexError, ValueError)`. -/
inductive PErr where
  | keyError
  | indexError
  | valueError
deriving DecidableEq, Repr

/-- `datetime.strptime(s, "%Y-%m-%d")`: full-string match plus constructor
validation; failure is a `ValueError`. -/
def strptimeDate (s : String) : Except PErr NaiveDT :=
  match dateChain s.data with
  | some (y, m, d, rest) =>
    if rest = [] then
      match mkNaive y m d 0 0 0 with
      | some dt => .ok dt
      | none => .error .valueError
    else .error .valueError
  | none => .error .valueError

/-- `datetime.strptime(s, "%Y-%m-%dT%H:%M:%S%z")` as an option-valued chain. -/
def tzChain (cs : List Char) : Option AwareDT := do
  let (y, m, d, cs) ← dateChain cs
  let cs ← lit 'T' cs
  let (hh, cs) ← takeHour cs
  let cs ← lit ':' cs
  let (mi, cs) ← takeMS cs
  let cs ← lit ':' cs
  let (ss, cs) ← takeMS cs
  let (off, cs) ← takeTz cs
  if cs = [] then
    let dt ← mkNaive y m d hh mi ss
    pure ⟨dt, off⟩
  else none

/-- `datetime.strptime(s, "%Y-%m-%dT%H:%M:%S%z")`: failure is a `ValueError`. -/
def strptimeTz (s : String) : Except PErr AwareDT :=
  match tzChain s.data with
  | some a => .ok a
  | none => .error .valueError

/-- `s.replace(".000Z", "+0000")` specialised to the normalizer's pattern:
every non-overlapping occurrence of `.000Z`, scanned left to right, is
replaced by `+0000` (Python `str.replace` semantics). -/
def replace000Z : List Char → List Char
  | '.' :: '0' :: '0' :: '0' :: 'Z' :: rest =>
    '+' :: '0' :: '0' :: '0' :: '0' :: replace000Z rest
  | c :: rest => c :: replace000Z rest
  | [] => []

/-- The acceptance-timestamp rewrite applied by the normalizer. -/
def rewriteStamp (s : String) : String := ⟨replace000Z s.data⟩

/-- `datetime.strptime(v.replace(".000Z", "+0000"), "%Y-%m-%dT%H:%M:%S%z")`,
exactly the expression the normalizer evaluates for `acceptanceDateTime`. -/
def acceptParse (s : String) : Except PErr AwareDT :=
  strptimeTz (rewriteStamp s)

/-- The parallel-array block consumed by `_parse_filings` (`filings.recent`
of the primary submissions document, or an overflow document).  Each key may
be absent; present arrays carry the types the upstream document shape
declares. -/
structure Block where
  accessionNumber : Option (List String) := none
  form : Option (List String) := none
  filingDate : Option (List String) := none
  acceptanceDateTime : Option (List String) := none
  size : Option (List Int) := none
  isXBRL : Option (List Int) := none
  isInlineXBRL : Option (List Int) := none
  primaryDocument : Option (List String) := none
  primaryDocDescription : Option (List String) := none
  reportDate : Option (List String) := none
  act : Option (List String) := none
  items : Option (List String) := none
deriving Repr

/-- The `Filing` pydantic model. -/
structure Filing where
  accession_number : String
  form : String
  filing_date : NaiveDT
  report_date : Option NaiveDT := none
  acceptance_time : AwareDT
  act : Option String := none
  size : Int
  items : Option (List String) := none
  is_xbrl : Bool
  is_inline_xbrl : Bool
  primary_document : String
  primary_document_description : String
deriving DecidableEq, Repr

/-- `data[key]`: raises `KeyError` when the key is absent. -/
def dictGet {α : Type} (o : Option (List α)) : Except PErr (List α) :=
  match o with
  | some l => .ok l
  | none => .error .keyError

/-- `lst[i]`: raises `IndexError` out of bounds. -/
def listIdx {α : Type} (l : List α) (i : Nat) : Except PErr α :=
  match l.get? i with
  | some v => .ok v
  | none => .error .indexError

/-- Python whitespace characters stripped by `str.strip()` (ASCII range). -/
def isSpace (c : Char) : Bool :=
  c = ' ' ∨ c = '\t' ∨ c = '\n' ∨ c = '\r' ∨ c.toNat = 11 ∨ c.toNat = 12

/-- `s.strip()`: remove leading and trailing whitespace. -/
def pyStrip (s : String) : String :=
  ⟨((s.data.dropWhile isSpace).reverse.dropWhile isSpace).reverse⟩

/-- `s.split(",")`: split on every comma; no piece is dropped, and the empty
string yields one empty piece. -/
def splitComma : List Char → List (List Char)
  | [] => [[]]
  | c :: rest =>
    if c = ',' then [] :: splitComma rest
    else
      match splitComma rest with
      | h :: t => (c :: h) :: t
      | [] => [[c]]

/-- The guard of the conditionally-present fields:
`data.get(k) and i < len(data[k]) and data[k][i]` — the array exists and is
non-empty, the index is in bounds, and the value there is truthy (non-empty
string).  Yields that value when all three hold. -/
def condVal (o : Option (List String)) (i : Nat) : Option String :=
  match o with
  | none => none
  | some l =>
    if l.isEmpty then none
    else
      match l.get? i with
      | none => none
      | some v => if v = "" then none else some v

/-- `[item.strip() for item in v.split(",") if item.strip()]`. -/
def parseItems (v : String) : List String :=
  ((splitComma v.data).map (fun p => pyStrip ⟨p⟩)).filter (fun p => ¬p = "")

/-- The five required fields of a record, extracted in the evaluation order
of the dict literal in `_parse_filings`. -/
structure ReqFields where
  accession : String
  form : String
  filingDate : NaiveDT
  acceptanceTime : AwareDT
  size : Int
deriving DecidableEq, Repr

/-- Required-field extraction for record `i`: `data["accessionNumber"][i]`,
`data["form"][i]`, `strptime(data["filingDate"][i], "%Y-%m-%d")`,
`strptime(data["acceptanceDateTime"][i].replace(".000Z","+0000"), ...)`,
`data["size"][i]`, in that order. -/
def requiredPart (data : Block) (i : Nat) : Except PErr ReqFields :=
  match dictGet data.accessionNumber with
  | .error e => .error e
  | .ok accArr =>
  match listIdx accArr i with
  | .error e => .error e
  | .ok accession =>
  match dictGet data.form with
  | .error e => .error e
  | .ok formArr =>
  match listIdx formArr i with
  | .error e => .error e
  | .ok form =>
  match dictGet data.filingDate with
  | .error e => .error e
  | .ok fdArr =>
  match listIdx fdArr i with
  | .error e => .error e
  | .ok fdS =>
  match strptimeDate fdS with
  | .error e => .error e
  | .ok filingDate =>
  match dictGet data.acceptanceDateTime with
  | .error e => .error e
  | .ok atArr =>
  match listIdx atArr i with
  | .error e => .error e
  | .ok atS =>
  match acceptParse atS with
  | .error e => .error e
  | .ok acceptanceTime =>
  match dictGet data.size with
  | .error e => .error e
  | .ok szArr =>
  match listIdx szArr i with
  | .error e => .error e
  | .ok size => .ok ⟨accession, form, filingDate, acceptanceTime, size⟩

/-- One iteration of the `_parse_filings` loop body for index `i` of a block of
`n` records: the dict literal (required fields, then the defaulted optional
fields `isXBRL`/`isInlineXBRL`/`primaryDocument`/`primaryDocDescription` with
their `data.get(k, [default] * num_filings)[i]` fallbacks), the three
conditional-field blocks, and `Filing.model_validate`. -/
def parseRecord (data : Block) (n i : Nat) : Except PErr Filing :=
  match requiredPart data i with
  | .error e => .error e
  | .ok r =>
  match listIdx (data.isXBRL.getD (List.replicate n 0)) i with
  | .error e => .error e
  | .ok isx =>
  match listIdx (data.isInlineXBRL.getD (List.replicate n 0)) i with
  | .error e => .error e
  | .ok isix =>
  match listIdx (data.primaryDocument.getD (List.replicate n "")) i with
  | .error e => .error e
  | .ok pd =>
  match listIdx (data.primaryDocDescription.getD (List.replicate n "")) i with
  | .error e => .error e
  | .ok pdd =>
  match (match condVal data.reportDate i with
         | some s => Except.map some (strptimeDate s)
         | none => .ok none) with
  | .error e => .error e
  | .ok rd =>
    .ok { accession_number := r.accession
          form := r.form
          filing_date := r.filingDate
          report_date := rd
          acceptance_time := r.acceptanceTime
          act := condVal data.act i
          size := r.size
          items := (condVal data.items i).map parseItems
          is_xbrl := isx != 0
          is_inline_xbrl := isix != 0
          primary_document := if pd = "" then "" else pd
          primary_document_description := if pdd = "" then "" else pdd }

/-- The `for i in range(num_filings)` loop: a record whose construction raises
one of the caught classes (`KeyError`, `IndexError`, `ValueError` — every
`PErr`) is skipped with a diagnostic; successful records are appended in
order. -/
def parseLoop (data : Block) (n : Nat) : List Nat → List Filing
  | [] => []
  | i :: rest =>
    match parseRecord data n i with
    | .ok f => f :: parseLoop data n rest
    | .error _ => parseLoop data n rest

/-- `EDGARClient._parse_filings`: `len(data["accessionNumber"])` may raise
`KeyError` to the caller; otherwise the per-index loop runs with every
per-record failure recovered by omission. -/
def parseFilings (data : Block) : Except PErr (List Filing) :=
  match data.accessionNumber with
  | none => .error .keyError
  | some accArr => .ok (parseLoop data accArr.length (List.range accArr.length))

/-- Digits-with-underscores tail of a Python integer literal: an underscore
must sit between two digits. -/
def digitsVal : List Char → Nat → Option Nat
  | [], acc => some acc
  | '_' :: rest, acc =>
    match rest with
    | c :: rest' => if isDig c then digitsVal rest' (acc * 10 + dval c) else none
    | [] => none
  | c :: rest, acc => if isDig c then digitsVal rest (acc * 10 + dval c) else none

/-- Unsigned decimal body accepted by `int(...)`. -/
def pyIntCore (cs : List Char) : Option Nat :=
  match cs with
  | c :: rest => if isDig c then digitsVal rest (dval c) else none
  | [] => none

/-- `int(cik)` on a string: surrounding whitespace stripped, optional sign,
decimal digits; anything else raises `ValueError`. -/
def pyInt (s : String) : Except PErr Int :=
  match (pyStrip s).data with
  | '+' :: rest =>
    match pyIntCore rest with
    | some n => .ok (n : Int)
    | none => .error .valueError
  | '-' :: rest =>
    match pyIntCore rest with
    | some n => .ok (-(n : Int))
    | none => .error .valueError
  | cs =>
    match pyIntCore cs with
    | some n => .ok (n : Int)
    | none => .error .valueError

/-- Decimal digit characters of a positive number, most significant first;
`fuel` bounds the recursion depth and any `fuel ≥ n` is sufficient. -/
def natDigitsCore : Nat → Nat → List Char → List Char
  | _, 0, acc => acc
  | 0, _ + 1, acc => acc
  | n + 1, fuel + 1, acc =>
    natDigitsCore ((n + 1) / 10) fuel (dchar ((n + 1) % 10) :: acc)

/-- Decimal digit characters of a natural number (`"0"` for zero). -/
def natDigits (n : Nat) : List Char :=
  if n = 0 then ['0'] else natDigitsCore n n []

/-- Pad on the left with `c` to width `w`. -/
def leftPad (c : Char) (w : Nat) (cs : List Char) : List Char :=
  List.replicate (w - cs.length) c ++ cs

/-- `f"{v:010d}"`: sign-aware zero padding to a total width of ten. -/
def fmt010d (v : Int) : String :=
  if v < 0 then ⟨'-' :: leftPad '0' 9 (natDigits v.natAbs)⟩
  else ⟨leftPad '0' 10 (natDigits v.toNat)⟩

/-- The primary submissions document, reduced to the parts `get_filings`
reads: `data["filings"]["recent"]` and the names under
`data["filings"]["files"]`. -/
structure PrimaryDoc where
  recent : Block
  files : List String

/-- The fetcher collaborator: `_get` + `.json()` for the two document shapes.
`none` models a raised `httpx.HTTPError`. -/
structure FetchEnv where
  fetchPrimary : String → Option PrimaryDoc
  fetchFile : String → Option Block

/-- Exceptions `get_filings` can raise: `ValueError` from `int(cik)`, an
`httpx` error from a fetch (tagged with the failing URL), or an uncaught
normalizer error. -/
inductive GErr where
  | inputError
  | fetchError (url : String)
  | parseError (e : PErr)
deriving DecidableEq

/-- `urljoin(DATA_URL, f"submissions/CIK{normalized_cik}.json")`. -/
def primaryUrl (padded : String) : String :=
  "https://data.sec.gov/submissions/CIK" ++ padded ++ ".json"

/-- `urljoin(DATA_URL, f"submissions/{file['name']}")`. -/
def fileUrl (name : String) : String :=
  "https://data.sec.gov/submissions/" ++ name

/-- The overflow-file loop of `get_filings`: fetch each listed file in order,
parse it, and append its records; returns the concatenation plus the list of
URLs requested (in request order) up to the first failure. -/
def fetchLoopT (env : FetchEnv) : List String → Except GErr (List Filing) × List String
  | [] => (.ok [], [])
  | name :: rest =>
    let u := fileUrl name
    match env.fetchFile u with
    | none => (.error (.fetchError u), [u])
    | some blk =>
      match parseFilings blk with
      | .error e => (.error (.parseError e), [u])
      | .ok fs =>
        let r := fetchLoopT env rest
        (r.1.map (fun t => fs ++ t), u :: r.2)

/-- `get_filings` up to (and excluding) the filter stage: CIK coercion, the
primary fetch, normalization of `filings.recent`, and the overflow-file loop.
The second component is the trace of URLs requested, in request order. -/
def getFilingsRaw (env : FetchEnv) (cik : String) :
    Except GErr (List Filing) × List String :=
  match pyInt cik with
  | .error _ => (.error .inputError, [])
  | .ok v =>
    let u := primaryUrl (fmt010d v)
    match env.fetchPrimary u with
    | none => (.error (.fetchError u), [u])
    | some doc =>
      match parseFilings doc.recent with
      | .error e => (.error (.parseError e), [u])
      | .ok main =>
        let r := fetchLoopT env doc.files
        (r.1.map (fun t => main ++ t), u :: r.2)

/-- `if start_date and filing.filing_date < start_date: continue`. -/
def startSkip (sd : Option NaiveDT) (f : Filing) : Bool :=
  match sd with
  | some s => f.filing_date.blt s
  | none => false

/-- `if end_date and filing.filing_date > end_date: continue`. -/
def endSkip (ed : Option NaiveDT) (f : Filing) : Bool :=
  match ed with
  | some e => e.blt f.filing_date
  | none => false

/-- `if forms and filing.form not in forms: continue` — an empty `forms` list
is falsy, so it disables the form filter. -/
def formsSkip (forms : Option (List String)) (f : Filing) : Bool :=
  match forms with
  | some fs => ¬fs.isEmpty && ¬fs.contains f.form
  | none => false

/-- A filing passes all three skip tests. -/
def keep (sd ed : Option NaiveDT) (forms : Option (List String)) (f : Filing) : Bool :=
  ¬startSkip sd f && ¬endSkip ed f && ¬formsSkip forms f

/-- `if limit and len(filtered_filings) >= limit: break` — a zero limit is
falsy, so it never breaks. -/
def limitHit (limit : Option Int) (len : Nat) : Bool :=
  match limit with
  | some k => ¬k = 0 && k ≤ (len : Int)
  | none => false

/-- The filter loop of `get_filings`, with `acc` holding the collected
filings in reverse. -/
def filterLoop (sd ed : Option NaiveDT) (forms : Option (List String))
    (limit : Option Int) : List Filing → List Filing → List Filing
  | [], acc => acc.reverse
  | f :: rest, acc =>
    if startSkip sd f then filterLoop sd ed forms limit rest acc
    else if endSkip ed f then filterLoop sd ed forms limit rest acc
    else if formsSkip forms f then filterLoop sd ed forms limit rest acc
    else
      if limitHit limit (f :: acc).length then (f :: acc).reverse
      else filterLoop sd ed forms limit rest (f :: acc)

/-- The filter stage of `get_filings` applied to the aggregated sequence. -/
def filterStage (sd ed : Option NaiveDT) (forms : Option (List String))
    (limit : Option Int) (l : List Filing) : List Filing :=
  filterLoop sd ed forms limit l []

/-- `EDGARClient.get_filings`: aggregation followed by the filter stage. -/
def getFilings (env : FetchEnv) (cik : String) (sd ed : Option NaiveDT)
    (forms : Option (List String)) (limit : Option Int) :
    Except GErr (List Filing) :=
  (getFilingsRaw env cik).1.map (filterStage sd ed forms limit)

/-- Two decimal digits, zero padded (for values below 100). -/
def pad2 (n : Nat) : List Char := [dchar (n / 10), dchar (n % 10)]

/-- Four decimal digits, zero padded (for values below 10000). -/
def pad4 (n : Nat) : List Char :=
  [dchar (n / 1000), dchar (n / 100 % 10), dchar (n / 10 % 10), dchar (n % 10)]

/-- The zone-free part of an upstream acceptance timestamp:
`YYYY-MM-DDTHH:MM:SS`. -/
def plainStamp (y mo d h mi s : Nat) : List Char :=
  pad4 y ++ '-' :: pad2 mo ++ '-' :: pad2 d ++
    'T' :: pad2 h ++ ':' :: pad2 mi ++ ':' :: pad2 s

/-- An upstream-shaped `acceptanceDateTime` value: the zone-free stamp with
the literal `.000Z` millisecond-and-zone suffix. -/
def upstreamStamp (y mo d h mi s : Nat) : String :=
  ⟨plainStamp y mo d h mi s ++ ['.', '0', '0', '0', 'Z']⟩

theorem dictGet_ok {α : Type} {o : Option (List α)} {l : List α} :
    dictGet o = .ok l ↔ o = some l := by
  cases o <;> simp [dictGet]

theorem listIdx_ok {α : Type} {l : List α} {i : Nat} {v : α} :
    listIdx l i = .ok v ↔ l.get? i = some v := by
  unfold listIdx
  cases h : l.get? i <;> simp

theorem parseLoop_eq (data : Block) (n : Nat) (js : List Nat) :
    parseLoop data n js = js.filterMap (fun j => (parseRecord data n j).toOption) := by
  induction js with
  | nil => rfl
  | cons j rest ih =>
    simp only [parseLoop, List.filterMap_cons]
    cases h : parseRecord data n j <;> simp [h, ih, Except.toOption]

theorem requiredPart_ok_inv (data : Block) (i : Nat) (r : ReqFields)
    (h : requiredPart data i = .ok r) :
    ∃ accArr formArr fdArr atArr szArr fdS atS,
      data.accessionNumber = some accArr ∧ accArr.get? i = some r.accession ∧
      data.form = some formArr ∧ formArr.get? i = some r.form ∧
      data.filingDate = some fdArr ∧ fdArr.get? i = some fdS ∧
        strptimeDate fdS = .ok r.filingDate ∧
      data.acceptanceDateTime = some atArr ∧ atArr.get? i = some atS ∧
        acceptParse atS = .ok r.acceptanceTime ∧
      data.size = some szArr ∧ szArr.get? i = some r.size := by
  unfold requiredPart at h
  split at h
  · cases h
  next accArr hA =>
  split at h
  · cases h
  next accession hAcc =>
  split at h
  · cases h
  next formArr hF =>
  split at h
  · cases h
  next form hFv =>
  split at h
  · cases h
  next fdArr hFd =>
  split at h
  · cases h
  next fdS hFdS =>
  split at h
  · cases h
  next filingDate hPd =>
  split at h
  · cases h
  next atArr hAt =>
  split at h
  · cases h
  next atS hAtS =>
  split at h
  · cases h
  next acceptanceTime hPa =>
  split at h
  · cases h
  next szArr hSz =>
  split at h
  · cases h
  next size hSzV =>
  cases h
  exact ⟨accArr, formArr, fdArr, atArr, szArr, fdS, atS,
    dictGet_ok.mp hA, listIdx_ok.mp hAcc,
    dictGet_ok.mp hF, listIdx_ok.mp hFv,
    dictGet_ok.mp hFd, listIdx_ok.mp hFdS, hPd,
    dictGet_ok.mp hAt, listIdx_ok.mp hAtS, hPa,
    dictGet_ok.mp hSz, listIdx_ok.mp hSzV⟩

theorem parseRecord_ok_inv (data : Block) (n i : Nat) (f : Filing)
    (h : parseRecord data n i = .ok f) :
    ∃ r, requiredPart data i = .ok r ∧
      f.accession_number = r.accession ∧ f.form = r.form ∧
      f.filing_date = r.filingDate ∧ f.acceptance_time = r.acceptanceTime ∧
      f.size = r.size ∧
      f.report_date = (condVal data.reportDate i).bind
        (fun s => (strptimeDate s).toOption) ∧
      f.act = condVal data.act i ∧
      f.items = (condVal data.items i).map parseItems := by
  unfold parseRecord at h
  split at h
  · cases h
  next r hr =>
  split at h
  · cases h
  next isx hx =>
  split at h
  · cases h
  next isix hix =>
  split at h
  · cases h
  next pd hpd =>
  split at h
  · cases h
  next pdd hpdd =>
  split at h
  · cases h
  next rd hrd =>
  cases h
  refine ⟨r, hr, rfl, rfl, rfl, rfl, rfl, ?_, rfl, rfl⟩
  cases hcv : condVal data.reportDate i with
  | none => rw [hcv] at hrd; cases hrd; rfl
  | some s =>
    rw [hcv] at hrd
    cases hps : strptimeDate s <;> simp_all [Except.map, Except.toOption]

/-- A record whose required extraction fails is dropped, never constructed. -/
theorem parseRecord_err (data : Block) (n i : Nat) (e : PErr)
    (h : requiredPart data i = .error e) : parseRecord data n i = .error e := by
  unfold parseRecord
  rw [h]

/-- If any required array other than `accessionNumber` is absent, no record
at any index can be constructed. -/
theorem parseRecord_not_ok_of_missing (data : Block) (n i : Nat)
    (hm : data.form = none ∨ data.filingDate = none ∨
      data.acceptanceDateTime = none ∨ data.size = none) :
    ∀ f, parseRecord data n i ≠ .ok f := by
  intro f h
  obtain ⟨r, hr, -⟩ := parseRecord_ok_inv data n i f h
  obtain ⟨_, _, _, _, _, _, _, _, _, hF, _, hFd, _, _, hAt, _, _, hSz, _⟩ :=
    requiredPart_ok_inv data i r hr
  rcases hm with h1 | h1 | h1 | h1 <;> simp_all

theorem length_filterMap_allSome {α β : Type} (g : α → Option β) :
    ∀ l : List α, (∀ a ∈ l, (g a).isSome) → (l.filterMap g).length = l.length := by
  intro l
  induction l with
  | nil => simp
  | cons a t ih =>
    intro h
    rw [List.filterMap_cons]
    cases hg : g a with
    | none => exact absurd (h a (List.mem_cons_self a t)) (by simp [hg])
    | some b => simp [ih (fun x hx => h x (List.mem_cons_of_mem _ hx))]

theorem length_filterMap_nodup {β : Type} (g : Nat → Option β) :
    ∀ (l : List Nat) (i0 : Nat), l.Nodup → i0 ∈ l → g i0 = none →
      (∀ j ∈ l, j ≠ i0 → (g j).isSome) →
      (l.filterMap g).length + 1 = l.length := by
  intro l
  induction l with
  | nil => simp
  | cons a t ih =>
    intro i0 hnd hmem hg hsome
    rcases List.mem_cons.mp hmem with rfl | hmem'
    · have hall : ∀ j ∈ t, (g j).isSome := by
        intro j hj
        refine hsome j (List.mem_cons_of_mem _ hj) (fun he => ?_)
        exact (List.nodup_cons.mp hnd).1 (he ▸ hj)
      rw [List.filterMap_cons, hg]
      simp [length_filterMap_allSome g t hall]
    · have ha : a ≠ i0 := fun he => (List.nodup_cons.mp hnd).1 (he ▸ hmem')
      have hsa := hsome a (List.mem_cons_self a t) ha
      rw [List.filterMap_cons]
      cases hga : g a with
      | none => exact absurd hsa (by simp [hga])
      | some b =>
        have := ih i0 (List.nodup_cons.mp hnd).2 hmem' hg
          (fun j hj hne => hsome j (List.mem_cons_of_mem _ hj) hne)
        simp only [List.length_cons]
        omega

/-- Blocks used to instantiate the partial-failure and missing-array
theorems at concrete inputs: two records of which the second has an
unparseable `filingDate`. -/
def blkOneBad : Block :=
  { accessionNumber := some ["0000320193-24-000001", "0000320193-24-000002"]
    form := some ["10-K", "8-K"]
    filingDate := some ["2024-01-02", "not-a-date"]
    acceptanceDateTime := some ["2024-01-02T12:00:00.000Z", "2024-01-03T12:00:00.000Z"]
    size := some [100, 200] }

/-- A block with the `accessionNumber` key absent. -/
def blkNoAccession : Block := { form := some ["8-K"] }

/-- A block with `accessionNumber` present but the required `form`,
`acceptanceDateTime` and `size` arrays absent. -/
def blkNoForm : Block :=
  { accessionNumber := some ["0000320193-24-000001"]
    filingDate := some ["2024-01-02"] }

/-- C1: in a parallel-array block of length `n` where exactly one index fails
a required-field lookup or conversion (a `KeyError`/`IndexError`/`ValueError`
from the `accessionNumber`/`form`/`filingDate`/`acceptanceDateTime`/`size`
extraction) and every other index parses, `_parse_filings` raises nothing,
skips exactly the failing index, and returns the other `n - 1` records in
input order. -/
theorem parse_filings_partial_failure (data : Block) (accArr : List String)
    (i0 : Nat) (e : PErr)
    (hA : data.accessionNumber = some accArr)
    (hi : i0 < accArr.length)
    (hfail : requiredPart data i0 = .error e)
    (hok : ∀ j < accArr.length, j ≠ i0 →
      ((parseRecord data accArr.length j).toOption).isSome) :
    parseFilings data = .ok ((List.range accArr.length).filterMap
        (fun j => (parseRecord data accArr.length j).toOption)) ∧
      ((List.range accArr.length).filterMap
        (fun j => (parseRecord data accArr.length j).toOption)).length + 1 =
        accArr.length := by
  constructor
  · unfold parseFilings
    rw [hA]
    show Except.ok (parseLoop data accArr.length (List.range accArr.length)) = _
    rw [parseLoop_eq]
  · conv_rhs => rw [← List.length_range accArr.length]
    refine length_filterMap_nodup _ (List.range accArr.length) i0
      (List.nodup_range accArr.length) (List.mem_range.mpr hi) ?_ ?_
    · rw [parseRecord_err data accArr.length i0 e hfail]
      rfl
    · intro j hj hne
      exact hok j (List.mem_range.mp hj) hne

/-- C1 witness: a two-record block whose second record has an unparseable
`filingDate` yields exactly the first record and no exception. -/
theorem parse_filings_partial_failure_witness :
    parseFilings blkOneBad = .ok ((List.range 2).filterMap
        (fun j => (parseRecord blkOneBad 2 j).toOption)) ∧
      ((List.range 2).filterMap
        (fun j => (parseRecord blkOneBad 2 j).toOption)).length + 1 = 2 :=
  parse_filings_partial_failure blkOneBad
    ["0000320193-24-000001", "0000320193-24-000002"] 1 .valueError rfl
    (by decide) rfl
    (by
      intro j hj hne
      have hj2 : j < 2 := hj
      rcases j with _ | _ | j
      · rfl
      · exact absurd rfl hne
      · omega)

/-- C10: the skip-on-failure policy does not cover `accessionNumber` itself —
`len(data["accessionNumber"])` is evaluated outside the per-record handler,
so a block without that key raises `KeyError` to the caller; a block with
`accessionNumber` but without some other required array skips every record
individually and returns the empty list with no exception. -/
theorem parse_filings_accession_vs_other_required (data : Block) :
    (data.accessionNumber = none → parseFilings data = .error .keyError) ∧
    (∀ accArr, data.accessionNumber = some accArr →
      (data.form = none ∨ data.filingDate = none ∨
        data.acceptanceDateTime = none ∨ data.size = none) →
      parseFilings data = .ok []) := by
  constructor
  · intro h
    unfold parseFilings
    rw [h]
  · intro accArr hA hm
    unfold parseFilings
    rw [hA]
    show Except.ok (parseLoop data accArr.length (List.range accArr.length)) = _
    rw [parseLoop_eq]
    congr 1
    rw [List.filterMap_eq_nil_iff]
    intro j _
    cases hp : parseRecord data accArr.length j with
    | ok f => exact absurd hp (by simpa using parseRecord_not_ok_of_missing data _ j hm f)
    | error e => rfl

/-- C10 witness: a block without `accessionNumber` raises `KeyError`; a block
with `accessionNumber` but no `form`/`acceptanceDateTime`/`size` arrays
returns the empty list. -/
theorem parse_filings_accession_vs_other_required_witness :
    parseFilings blkNoAccession = .error .keyError ∧ parseFilings blkNoForm = .ok [] :=
  ⟨(parse_filings_accession_vs_other_required blkNoAccession).1 rfl,
   (parse_filings_accession_vs_other_required blkNoForm).2
     ["0000320193-24-000001"] rfl (Or.inl rfl)⟩

/-- C8: on every record that survives, each conditionally-present field
(`reportDate`, `act`, `items`) is set iff its source array exists, is
non-empty, the index is in bounds, and the value there is non-empty (the
`condVal` guard); otherwise the attribute is absent, not defaulted.  In
particular an empty-string `reportDate` leaves `report_date` unset and a
valid date string becomes that date. -/
theorem parse_filings_conditional_fields (data : Block) (n i : Nat) (f : Filing)
    (h : parseRecord data n i = .ok f) :
    f.report_date = (condVal data.reportDate i).bind
        (fun s => (strptimeDate s).toOption) ∧
      f.act = condVal data.act i ∧
      f.items = (condVal data.items i).map parseItems ∧
      (∀ l, data.reportDate = some l → l.get? i = some "" → f.report_date = none) ∧
      (∀ l s dt, data.reportDate = some l → l.get? i = some s →
        ¬s = "" → strptimeDate s = .ok dt → f.report_date = some dt) := by
  obtain ⟨r, _, _, _, _, _, _, hrd, hact, hitems⟩ := parseRecord_ok_inv data n i f h
  refine ⟨hrd, hact, hitems, ?_, ?_⟩
  · intro l hl hget
    have hne : l.isEmpty = false := by
      cases l with
      | nil => simp at hget
      | cons a t => rfl
    have hget' : l[i]? = some "" := by simpa using hget
    rw [hrd]
    simp [condVal, hl, hne, hget']
  · intro l s dt hl hget hs hps
    have hne : l.isEmpty = false := by
      cases l with
      | nil => simp at hget
      | cons a t => rfl
    have hget' : l[i]? = some s := by simpa using hget
    rw [hrd]
    simp [condVal, hl, hne, hget', hs, hps, Except.toOption]

/-- A two-record block whose first record has an empty-string `reportDate`
and whose second has a valid one. -/
def blkRd : Block :=
  { accessionNumber := some ["0000320193-24-000101", "0000320193-24-000102"]
    form := some ["10-K", "8-K"]
    filingDate := some ["2024-01-02", "2024-03-15"]
    acceptanceDateTime := some ["2024-01-02T12:00:00.000Z", "2024-03-15T16:30:00.000Z"]
    size := some [10, 20]
    reportDate := some ["", "2024-03-14"] }

/-- The record at index 0 of `blkRd` (empty-string `reportDate`). -/
def filingRd0 : Filing :=
  { accession_number := "0000320193-24-000101"
    form := "10-K"
    filing_date := ⟨2024, 1, 2, 0, 0, 0⟩
    report_date := none
    acceptance_time := ⟨⟨2024, 1, 2, 12, 0, 0⟩, 0⟩
    act := none
    size := 10
    items := none
    is_xbrl := false
    is_inline_xbrl := false
    primary_document := ""
    primary_document_description := "" }

/-- The record at index 1 of `blkRd` (valid `reportDate`). -/
def filingRd1 : Filing :=
  { accession_number := "0000320193-24-000102"
    form := "8-K"
    filing_date := ⟨2024, 3, 15, 0, 0, 0⟩
    report_date := some ⟨2024, 3, 14, 0, 0, 0⟩
    acceptance_time := ⟨⟨2024, 3, 15, 16, 30, 0⟩, 0⟩
    act := none
    size := 20
    items := none
    is_xbrl := false
    is_inline_xbrl := false
    primary_document := ""
    primary_document_description := "" }

/-- C8 witness: at index 0 of `blkRd` the empty-string `reportDate` leaves
`report_date` unset; at index 1 the valid date string becomes that date. -/
theorem parse_filings_conditional_fields_witness :
    filingRd0.report_date = none ∧ filingRd1.report_date = some ⟨2024, 3, 14, 0, 0, 0⟩ ∧
      filingRd0.report_date = (condVal blkRd.reportDate 0).bind
        (fun s => (strptimeDate s).toOption) ∧
      filingRd1.report_date = (condVal blkRd.reportDate 1).bind
        (fun s => (strptimeDate s).toOption) :=
  ⟨rfl, rfl,
   (parse_filings_conditional_fields blkRd 2 0 filingRd0 rfl).1,
   (parse_filings_conditional_fields blkRd 2 1 filingRd1 rfl).1⟩

/-- A one-record block whose `size` value is negative. -/
def blkNegSize : Block :=
  { accessionNumber := some ["0000320193-24-000001"]
    form := some ["8-K"]
    filingDate := some ["2024-01-02"]
    acceptanceDateTime := some ["2024-01-02T12:00:00.000Z"]
    size := some [-1] }

/-- The record `blkNegSize` normalizes to: it survives with `size = -1`. -/
def filingNegSize : Filing :=
  { accession_number := "0000320193-24-000001"
    form := "8-K"
    filing_date := ⟨2024, 1, 2, 0, 0, 0⟩
    report_date := none
    acceptance_time := ⟨⟨2024, 1, 2, 12, 0, 0⟩, 0⟩
    act := none
    size := -1
    items := none
    is_xbrl := false
    is_inline_xbrl := false
    primary_document := ""
    primary_document_description := "" }

/-- C9 counterexample: nothing validates `size ≥ 0` — a record whose `size`
value is `-1` survives normalization with a negative `size`, so not every
surviving Filing has `size ≥ 0`. -/
theorem parse_filings_negative_size_cex :
    parseFilings blkNegSize = .ok [filingNegSize] ∧ filingNegSize.size < 0 :=
  ⟨rfl, by decide⟩

/-- C9 (amended): every Filing that survives normalization drew its five
required fields from present source arrays at its index — `accession_number`,
`form` and `size` are the array values, and `filing_date` /
`acceptance_time` are successful parses of the array values — but `size` is
only required to be an integer; it is not checked to be nonnegative. -/
theorem parse_filings_survivor_required (data : Block) (fs : List Filing)
    (f : Filing) (hok : parseFilings data = .ok fs) (hmem : f ∈ fs) :
    ∃ i accArr formArr fdArr atArr szArr fdS atS,
      data.accessionNumber = some accArr ∧ accArr.get? i = some f.accession_number ∧
      data.form = some formArr ∧ formArr.get? i = some f.form ∧
      data.filingDate = some fdArr ∧ fdArr.get? i = some fdS ∧
        strptimeDate fdS = .ok f.filing_date ∧
      data.acceptanceDateTime = some atArr ∧ atArr.get? i = some atS ∧
        acceptParse atS = .ok f.acceptance_time ∧
      data.size = some szArr ∧ szArr.get? i = some f.size := by
  unfold parseFilings at hok
  cases hA : data.accessionNumber with
  | none => rw [hA] at hok; cases hok
  | some accArr =>
    rw [hA] at hok
    cases hok
    rw [parseLoop_eq] at hmem
    obtain ⟨j, _, hj⟩ := List.mem_filterMap.mp hmem
    have hpr : parseRecord data accArr.length j = .ok f := by
      cases hp : parseRecord data accArr.length j <;> rw [hp] at hj
      · cases hj
      · simpa [Except.toOption] using hj
    obtain ⟨r, hr, ha, hf, hfd, hat, hsz, _⟩ :=
      parseRecord_ok_inv data accArr.length j f hpr
    obtain ⟨A, F, FD, AT, SZ, fdS, atS, h1, h2, h3, h4, h5, h6, h7, h8, h9, h10, h11, h12⟩ :=
      requiredPart_ok_inv data j r hr
    exact ⟨j, A, F, FD, AT, SZ, fdS, atS, hA.symm.trans h1, ha ▸ h2, h3, hf ▸ h4,
      h5, h6, hfd ▸ h7, h8, h9, hat ▸ h10, h11, hsz ▸ h12⟩

/-- C9 witness: the surviving record of `blkNegSize` drew all required
fields from the source arrays (and its `size` is the negative array value). -/
theorem parse_filings_survivor_required_witness :
    ∃ i accArr formArr fdArr atArr szArr fdS atS,
      blkNegSize.accessionNumber = some accArr ∧
        accArr.get? i = some filingNegSize.accession_number ∧
      blkNegSize.form = some formArr ∧ formArr.get? i = some filingNegSize.form ∧
      blkNegSize.filingDate = some fdArr ∧ fdArr.get? i = some fdS ∧
        strptimeDate fdS = .ok filingNegSize.filing_date ∧
      blkNegSize.acceptanceDateTime = some atArr ∧ atArr.get? i = some atS ∧
        acceptParse atS = .ok filingNegSize.acceptance_time ∧
      blkNegSize.size = some szArr ∧ szArr.get? i = some filingNegSize.size :=
  parse_filings_survivor_required blkNegSize [filingNegSize] filingNegSize rfl
    (List.mem_singleton.mpr rfl)

/-- A one-record block whose `items` value is truthy but trims to nothing. -/
def blkItemsWS : Block :=
  { accessionNumber := some ["0000320193-24-000003"]
    form := some ["8-K"]
    filingDate := some ["2024-01-02"]
    acceptanceDateTime := some ["2024-01-02T12:00:00.000Z"]
    size := some [5]
    items := some [" ,"] }

/-- The record `blkItemsWS` normalizes to: `items` is the empty list. -/
def filingItemsWS : Filing :=
  { accession_number := "0000320193-24-000003"
    form := "8-K"
    filing_date := ⟨2024, 1, 2, 0, 0, 0⟩
    report_date := none
    acceptance_time := ⟨⟨2024, 1, 2, 12, 0, 0⟩, 0⟩
    act := none
    size := 5
    items := some []
    is_xbrl := false
    is_inline_xbrl := false
    primary_document := ""
    primary_document_description := "" }

/-- C7 counterexample: when the raw `items` value is non-empty but every
comma piece trims to nothing (value `" ,"`), the resulting empty list is
still assigned — the `items` attribute is `[]`, not omitted. -/
theorem parse_filings_items_empty_cex :
    parseFilings blkItemsWS = .ok [filingItemsWS] ∧
      filingItemsWS.items = some [] ∧ ¬filingItemsWS.items = none :=
  ⟨rfl, rfl, by decide⟩

/-- C7 (amended): when the `items` source value is present and non-empty,
the normalizer splits it on commas, strips each piece, and drops the pieces
that are empty after stripping; the attribute is omitted exactly when the
source value is absent, out of bounds, or the empty string — if a non-empty
source value yields no pieces, `items` is set to the empty list rather than
omitted. -/
theorem parse_filings_items (data : Block) (n i : Nat) (f : Filing)
    (h : parseRecord data n i = .ok f) :
    (f.items = none ↔ condVal data.items i = none) ∧
      (∀ s, condVal data.items i = some s →
        f.items = some (((splitComma s.data).map (fun p => pyStrip ⟨p⟩)).filter
          (fun p => ¬p = ""))) := by
  obtain ⟨r, _, _, _, _, _, _, _, _, hitems⟩ := parseRecord_ok_inv data n i f h
  constructor
  · rw [hitems]
    cases condVal data.items i <;> simp
  · intro s hs
    rw [hitems, hs]
    rfl

/-- A one-record block whose `items` value is `"2.01, 9.01,  "`. -/
def blkItems : Block :=
  { accessionNumber := some ["0000320193-24-000002"]
    form := some ["8-K"]
    filingDate := some ["2024-03-15"]
    acceptanceDateTime := some ["2024-03-15T16:30:00.000Z"]
    size := some [2718]
    items := some ["2.01, 9.01,  "] }

/-- The record `blkItems` normalizes to: `items` is `["2.01", "9.01"]`. -/
def filingItems : Filing :=
  { accession_number := "0000320193-24-000002"
    form := "8-K"
    filing_date := ⟨2024, 3, 15, 0, 0, 0⟩
    report_date := none
    acceptance_time := ⟨⟨2024, 3, 15, 16, 30, 0⟩, 0⟩
    act := none
    size := 2718
    items := some ["2.01", "9.01"]
    is_xbrl := false
    is_inline_xbrl := false
    primary_document := ""
    primary_document_description := "" }

/-- C7 witness: the raw value `"2.01, 9.01,  "` yields
`items = ["2.01", "9.01"]` (the trailing whitespace piece is dropped). -/
theorem parse_filings_items_witness :
    filingItems.items = some (((splitComma "2.01, 9.01,  ".data).map
        (fun p => pyStrip ⟨p⟩)).filter (fun p => ¬p = "")) ∧
      filingItems.items = some ["2.01", "9.01"] :=
  ⟨(parse_filings_items blkItems 1 0 filingItems rfl).2 "2.01, 9.01,  " rfl, rfl⟩

theorem dchar_isDig {v : Nat} (h : v < 10) : isDig (dchar v) = true := by
  interval_cases v <;> rfl

theorem dchar_dval {v : Nat} (h : v < 10) : dval (dchar v) = v := by
  interval_cases v <;> rfl

theorem dchar_ne_dot {v : Nat} (h : v < 10) : dchar v ≠ '.' := by
  interval_cases v <;> decide

theorem replace000Z_head (c : Char) (rest : List Char) (h : c ≠ '.') :
    replace000Z (c :: rest) = c :: replace000Z rest := by
  rw [replace000Z.eq_def]
  split
  · rename_i heq
    cases heq
    exact absurd rfl h
  · rename_i heq
    cases heq
    rfl
  · rename_i heq
    cases heq

/-- Rewriting a string whose body has no dot and whose only `.000Z` is the
final suffix replaces exactly that suffix. -/
theorem replace000Z_suffix (cs : List Char) (h : ∀ c ∈ cs, c ≠ '.') :
    replace000Z (cs ++ ['.', '0', '0', '0', 'Z']) = cs ++ ['+', '0', '0', '0', '0'] := by
  induction cs with
  | nil => rfl
  | cons c rest ih =>
    rw [List.cons_append,
      replace000Z_head c _ (h c (List.mem_cons_self c rest)),
      ih (fun x hx => h x (List.mem_cons_of_mem _ hx))]
    rfl

theorem pad2_no_dot {n : Nat} (h : n < 100) (c : Char) (hc : c ∈ pad2 n) : c ≠ '.' := by
  simp only [pad2, List.mem_cons, List.not_mem_nil, or_false] at hc
  rcases hc with rfl | rfl
  · exact dchar_ne_dot (by omega)
  · exact dchar_ne_dot (Nat.mod_lt _ (by omega))

theorem pad4_no_dot {n : Nat} (h : n ≤ 9999) (c : Char) (hc : c ∈ pad4 n) : c ≠ '.' := by
  simp only [pad4, List.mem_cons, List.not_mem_nil, or_false] at hc
  rcases hc with rfl | rfl | rfl | rfl
  · exact dchar_ne_dot (by omega)
  · exact dchar_ne_dot (Nat.mod_lt _ (by omega))
  · exact dchar_ne_dot (Nat.mod_lt _ (by omega))
  · exact dchar_ne_dot (Nat.mod_lt _ (by omega))

theorem take4_pad4 (y : Nat) (h : y ≤ 9999) (rest : List Char) :
    take4 (pad4 y ++ rest) = some (y, rest) := by
  have h1 : y / 1000 < 10 := by omega
  have h2 : y / 100 % 10 < 10 := Nat.mod_lt _ (by omega)
  have h3 : y / 10 % 10 < 10 := Nat.mod_lt _ (by omega)
  have h4 : y % 10 < 10 := Nat.mod_lt _ (by omega)
  simp [pad4, take4, dchar_isDig h1, dchar_isDig h2, dchar_isDig h3, dchar_isDig h4,
    dchar_dval h1, dchar_dval h2, dchar_dval h3, dchar_dval h4]
  omega

theorem takeMonth_pad2 (mo : Nat) (h1 : 1 ≤ mo) (h2 : mo ≤ 12) (rest : List Char) :
    takeMonth (pad2 mo ++ rest) = some (mo, rest) := by
  have ha : mo / 10 < 10 := by omega
  have hb : mo % 10 < 10 := Nat.mod_lt _ (by omega)
  have he : 10 * (mo / 10) + mo % 10 = mo := by omega
  simp [pad2, takeMonth, dchar_isDig ha, dchar_isDig hb, dchar_dval ha, dchar_dval hb,
    he, h1, h2]

theorem takeDay_pad2 (d : Nat) (h1 : 1 ≤ d) (h2 : d ≤ 31) (rest : List Char) :
    takeDay (pad2 d ++ rest) = some (d, rest) := by
  have ha : d / 10 < 10 := by omega
  have hb : d % 10 < 10 := Nat.mod_lt _ (by omega)
  have he : 10 * (d / 10) + d % 10 = d := by omega
  simp [pad2, takeDay, dchar_isDig ha, dchar_isDig hb, dchar_dval ha, dchar_dval hb,
    he, h1, h2]

theorem takeHour_pad2 (hh : Nat) (h2 : hh ≤ 23) (rest : List Char) :
    takeHour (pad2 hh ++ rest) = some (hh, rest) := by
  have ha : hh / 10 < 10 := by omega
  have hb : hh % 10 < 10 := Nat.mod_lt _ (by omega)
  have he : 10 * (hh / 10) + hh % 10 = hh := by omega
  simp [pad2, takeHour, dchar_isDig ha, dchar_isDig hb, dchar_dval ha, dchar_dval hb,
    he, h2]

theorem takeMS_pad2 (v : Nat) (h2 : v ≤ 59) (rest : List Char) :
    takeMS (pad2 v ++ rest) = some (v, rest) := by
  have ha : v / 10 < 10 := by omega
  have hb : v % 10 < 10 := Nat.mod_lt _ (by omega)
  have he : 10 * (v / 10) + v % 10 = v := by omega
  simp [pad2, takeMS, dchar_isDig ha, dchar_isDig hb, dchar_dval ha, dchar_dval hb,
    he, h2]

theorem daysInMonth_le (y m : Nat) : daysInMonth y m ≤ 31 := by
  unfold daysInMonth
  split_ifs <;> omega

theorem dateChain_pad (y mo d : Nat) (hy : y ≤ 9999) (hmo1 : 1 ≤ mo) (hmo2 : mo ≤ 12)
    (hd1 : 1 ≤ d) (hd2 : d ≤ 31) (rest : List Char) :
    dateChain (pad4 y ++ '-' :: (pad2 mo ++ '-' :: (pad2 d ++ rest))) =
      some (y, mo, d, rest) := by
  simp [dateChain, take4_pad4 y hy, lit, takeMonth_pad2 mo hmo1 hmo2,
    takeDay_pad2 d hd1 hd2]

theorem tzChain_plain (y mo d hh mi ss : Nat) (hy1 : 1 ≤ y) (hy2 : y ≤ 9999)
    (hmo1 : 1 ≤ mo) (hmo2 : mo ≤ 12) (hd1 : 1 ≤ d) (hd2 : d ≤ daysInMonth y mo)
    (hhh : hh ≤ 23) (hmi : mi ≤ 59) (hss : ss ≤ 59) :
    tzChain (plainStamp y mo d hh mi ss ++ ['+', '0', '0', '0', '0']) =
      some ⟨⟨y, mo, d, hh, mi, ss⟩, 0⟩ := by
  have hd31 : d ≤ 31 := le_trans hd2 (daysInMonth_le y mo)
  have htz : takeTz ['+', '0', '0', '0', '0'] = some (0, []) := rfl
  simp [plainStamp, tzChain, List.append_assoc, dateChain_pad y mo d hy2 hmo1 hmo2 hd1 hd31,
    lit, takeHour_pad2 hh hhh, takeMS_pad2 mi hmi, takeMS_pad2 ss hss, htz,
    mkNaive, hy1, hmo1, hmo2, hd1, hd2]

/-- C6: every upstream-shaped `acceptanceDateTime` value — a valid
`YYYY-MM-DDTHH:MM:SS` stamp with the literal `.000Z` suffix — has that
suffix rewritten to `+0000` before parsing, parses to a timezone-aware
value with UTC offset zero, and parses to the same result (hence the same
instant) as the `+0000`-suffixed form of the same stamp. -/
theorem acceptance_rewrite (y mo d hh mi ss : Nat) (hy1 : 1 ≤ y) (hy2 : y ≤ 9999)
    (hmo1 : 1 ≤ mo) (hmo2 : mo ≤ 12) (hd1 : 1 ≤ d) (hd2 : d ≤ daysInMonth y mo)
    (hhh : hh ≤ 23) (hmi : mi ≤ 59) (hss : ss ≤ 59) :
    rewriteStamp (upstreamStamp y mo d hh mi ss) =
      ⟨plainStamp y mo d hh mi ss ++ ['+', '0', '0', '0', '0']⟩ ∧
    acceptParse (upstreamStamp y mo d hh mi ss) = .ok ⟨⟨y, mo, d, hh, mi, ss⟩, 0⟩ ∧
    acceptParse (upstreamStamp y mo d hh mi ss) =
      strptimeTz ⟨plainStamp y mo d hh mi ss ++ ['+', '0', '0', '0', '0']⟩ ∧
    (acceptParse (upstreamStamp y mo d hh mi ss)).map AwareDT.instant =
      (strptimeTz ⟨plainStamp y mo d hh mi ss ++ ['+', '0', '0', '0', '0']⟩).map
        AwareDT.instant := by
  have hnod : ∀ c ∈ plainStamp y mo d hh mi ss, c ≠ '.' := by
    intro c hc
    simp only [plainStamp, List.mem_append, List.mem_cons] at hc
    rcases hc with ((((hc | rfl | hc) | rfl | hc) | rfl | hc) | rfl | hc) | rfl | hc
    · exact pad4_no_dot hy2 c hc
    · decide
    · exact pad2_no_dot (by omega) c hc
    · decide
    · exact pad2_no_dot (by have := daysInMonth_le y mo; omega) c hc
    · decide
    · exact pad2_no_dot (by omega) c hc
    · decide
    · exact pad2_no_dot (by omega) c hc
    · decide
    · exact pad2_no_dot (by omega) c hc
  have h1 : rewriteStamp (upstreamStamp y mo d hh mi ss) =
      ⟨plainStamp y mo d hh mi ss ++ ['+', '0', '0', '0', '0']⟩ :=
    congrArg String.mk (replace000Z_suffix _ hnod)
  have h2 : strptimeTz ⟨plainStamp y mo d hh mi ss ++ ['+', '0', '0', '0', '0']⟩ =
      .ok ⟨⟨y, mo, d, hh, mi, ss⟩, 0⟩ := by
    unfold strptimeTz
    rw [show (⟨plainStamp y mo d hh mi ss ++ ['+', '0', '0', '0', '0']⟩ : String).data =
      plainStamp y mo d hh mi ss ++ ['+', '0', '0', '0', '0'] from rfl]
    rw [tzChain_plain y mo d hh mi ss hy1 hy2 hmo1 hmo2 hd1 hd2 hhh hmi hss]
  have h3 : acceptParse (upstreamStamp y mo d hh mi ss) =
      strptimeTz ⟨plainStamp y mo d hh mi ss ++ ['+', '0', '0', '0', '0']⟩ := by
    unfold acceptParse
    rw [h1]
  exact ⟨h1, h3.trans h2, h3, by rw [h3]⟩

/-- C6 witness: `"2024-03-15T16:30:00.000Z"` is rewritten and parses to the
UTC-offset-zero aware datetime, the same result and instant as
`"2024-03-15T16:30:00+0000"`. -/
theorem acceptance_rewrite_witness :
    upstreamStamp 2024 3 15 16 30 0 = "2024-03-15T16:30:00.000Z" ∧
    acceptParse "2024-03-15T16:30:00.000Z" = .ok ⟨⟨2024, 3, 15, 16, 30, 0⟩, 0⟩ ∧
    acceptParse "2024-03-15T16:30:00.000Z" = strptimeTz "2024-03-15T16:30:00+0000" ∧
    (acceptParse "2024-03-15T16:30:00.000Z").map AwareDT.instant =
      (strptimeTz "2024-03-15T16:30:00+0000").map AwareDT.instant :=
  ⟨rfl,
   (acceptance_rewrite 2024 3 15 16 30 0 (by decide) (by decide) (by decide) (by decide)
     (by decide) (by decide) (by decide) (by decide) (by decide)).2.1,
   (acceptance_rewrite 2024 3 15 16 30 0 (by decide) (by decide) (by decide) (by decide)
     (by decide) (by decide) (by decide) (by decide) (by decide)).2.2.1,
   (acceptance_rewrite 2024 3 15 16 30 0 (by decide) (by decide) (by decide) (by decide)
     (by decide) (by decide) (by decide) (by decide) (by decide)).2.2.2⟩

/-- When the break test can never fire, the filter loop is a plain filter. -/
theorem filterLoop_never_hit (sd ed : Option NaiveDT) (forms : Option (List String))
    (limit : Option Int) (hnever : ∀ n, limitHit limit n = false) :
    ∀ (l acc : List Filing),
      filterLoop sd ed forms limit l acc = acc.reverse ++ l.filter (keep sd ed forms) := by
  intro l
  induction l with
  | nil => intro acc; simp [filterLoop]
  | cons f rest ih =>
    intro acc
    simp only [filterLoop, List.filter_cons, hnever]
    by_cases h1 : startSkip sd f
    · simp [h1, keep, ih]
    by_cases h2 : endSkip ed f
    · simp [h1, h2, keep, ih]
    by_cases h3 : formsSkip forms f
    · simp [h1, h2, h3, keep, ih]
    · simp [h1, h2, h3, keep, ih]

/-- With a positive limit and room left in the accumulator, the filter loop
takes the next `limit - len(acc)` qualifying filings in order. -/
theorem filterLoop_pos (sd ed : Option NaiveDT) (forms : Option (List String))
    (k : Int) (hk : 0 < k) :
    ∀ (l acc : List Filing), (acc.length : Int) < k →
      filterLoop sd ed forms (some k) l acc =
        acc.reverse ++ (l.filter (keep sd ed forms)).take (k - acc.length).toNat := by
  intro l
  induction l with
  | nil => intro acc _; simp [filterLoop]
  | cons f rest ih =>
    intro acc hacc
    simp only [filterLoop, List.filter_cons]
    by_cases h1 : startSkip sd f
    · simp [h1, keep, ih acc hacc]
    by_cases h2 : endSkip ed f
    · simp [h1, h2, keep, ih acc hacc]
    by_cases h3 : formsSkip forms f
    · simp [h1, h2, h3, keep, ih acc hacc]
    have hkeep : keep sd ed forms f = true := by simp [keep, h1, h2, h3]
    by_cases h4 : k ≤ (acc.length : Int) + 1
    · have hhit : limitHit (some k) (acc.length + 1) = true := by
        simp [limitHit]
        omega
      have htk : (k - (acc.length : Int)).toNat = 1 := by omega
      simp [h1, h2, h3, hhit, hkeep, htk]
    · have hhit : limitHit (some k) (acc.length + 1) = false := by
        simp [limitHit]
        omega
      have hrec := ih (f :: acc) (by simp only [List.length_cons]; omega)
      simp only [List.length_cons] at hrec
      have htk : (k - (acc.length : Int)).toNat =
          (k - ((acc.length + 1 : Nat) : Int)).toNat + 1 := by omega
      simp [h1, h2, h3, hhit, hkeep, hrec, htk, List.take_succ_cons]

/-- With no filters at all the filter stage is the identity. -/
theorem filterStage_id (l : List Filing) : filterStage none none none none l = l := by
  unfold filterStage
  rw [filterLoop_never_hit none none none none (fun _ => rfl)]
  simp [keep, startSkip, endSkip, formsSkip]

/-- C4 (amended): a filing qualifies iff it passes the date-range tests and,
when a non-empty `forms` list is given, its form is in that list (an empty
`forms` list is falsy and disables the form filter); with no limit, or with
`limit = 0` (also falsy), the result is all qualifying filings in sequence
order; with a positive limit the loop stops as soon as `limit` qualifying
filings are collected, so the result is the first `min(limit, matches)`
qualifying filings in the existing sequence order. -/
theorem filter_stage_semantics (sd ed : Option NaiveDT) (forms : Option (List String))
    (l : List Filing) :
    filterStage sd ed forms none l = l.filter (keep sd ed forms) ∧
    filterStage sd ed forms (some 0) l = l.filter (keep sd ed forms) ∧
    (∀ k : Int, 0 < k → filterStage sd ed forms (some k) l =
      (l.filter (keep sd ed forms)).take k.toNat) := by
  refine ⟨?_, ?_, ?_⟩
  · unfold filterStage
    rw [filterLoop_never_hit sd ed forms none (fun _ => rfl)]
    rfl
  · unfold filterStage
    rw [filterLoop_never_hit sd ed forms (some 0) (fun n => by simp [limitHit])]
    rfl
  · intro k hk
    unfold filterStage
    rw [filterLoop_pos sd ed forms k hk l [] (by simpa using hk)]
    simp

/-- A minimal filing with the given accession number, form and January day. -/
def simpleFiling (acc form : String) (day : Nat) : Filing :=
  { accession_number := acc
    form := form
    filing_date := ⟨2024, 1, day, 0, 0, 0⟩
    acceptance_time := ⟨⟨2024, 1, day, 12, 0, 0⟩, 0⟩
    size := 1
    is_xbrl := false
    is_inline_xbrl := false
    primary_document := ""
    primary_document_description := "" }

/-- C4 counterexample: the claim's inclusion test and limit cap fail on the
falsy values — with `forms = []` given, a filing whose form is in no list is
still included (the code's truthiness test disables the empty filter), and
with `limit = 0` given the result has one element, not `min(0, matches) = 0`. -/
theorem filter_stage_truthiness_cex :
    filterStage none none (some []) none [simpleFiling "a-1" "10-K" 2] =
        [simpleFiling "a-1" "10-K" 2] ∧
      ¬(simpleFiling "a-1" "10-K" 2).form ∈ ([] : List String) ∧
      filterStage none none none (some 0) [simpleFiling "a-1" "10-K" 2] =
        [simpleFiling "a-1" "10-K" 2] ∧
      ¬[simpleFiling "a-1" "10-K" 2].length = 0 :=
  ⟨rfl, by decide, rfl, by decide⟩

/-- C4 witness: five filings of which three are `8-K`, a form filter
`["8-K"]` and `limit = 2` yield exactly the first two `8-K` filings in
sequence order. -/
theorem filter_stage_semantics_witness :
    filterStage none none (some ["8-K"]) (some 2)
        [simpleFiling "a-1" "8-K" 2, simpleFiling "a-2" "10-K" 3,
         simpleFiling "a-3" "8-K" 4, simpleFiling "a-4" "8-K" 5,
         simpleFiling "a-5" "10-Q" 6] =
      [simpleFiling "a-1" "8-K" 2, simpleFiling "a-3" "8-K" 4] :=
  ((filter_stage_semantics none none (some ["8-K"])
      [simpleFiling "a-1" "8-K" 2, simpleFiling "a-2" "10-K" 3,
       simpleFiling "a-3" "8-K" 4, simpleFiling "a-4" "8-K" 5,
       simpleFiling "a-5" "10-Q" 6]).2.2 2 (by decide)).trans rfl

/-- When every listed overflow file fetches and parses, the loop returns the
concatenation of their record lists in listed order and requests every file
URL in order. -/
theorem fetchLoopT_ok (env : FetchEnv) (g : String → List Filing) :
    ∀ files : List String,
      (∀ name ∈ files, ∃ b, env.fetchFile (fileUrl name) = some b ∧
        parseFilings b = .ok (g name)) →
      fetchLoopT env files = (.ok ((files.map g).flatten), files.map fileUrl) := by
  intro files
  induction files with
  | nil => intro _; rfl
  | cons nm rest ih =>
    intro h
    obtain ⟨b, hb, hp⟩ := h nm (List.mem_cons_self nm rest)
    have hrest := ih (fun x hx => h x (List.mem_cons_of_mem _ hx))
    simp [fetchLoopT, hb, hp, hrest, Except.map]

/-- If the overflow loop succeeds, every listed file was fetched. -/
theorem fetchLoopT_ok_inv (env : FetchEnv) :
    ∀ (files : List String) (t : List Filing), (fetchLoopT env files).1 = .ok t →
      ∀ name ∈ files, (env.fetchFile (fileUrl name)).isSome := by
  intro files
  induction files with
  | nil => simp
  | cons nm rest ih =>
    intro t h name hmem
    simp only [fetchLoopT] at h
    cases hf : env.fetchFile (fileUrl nm) with
    | none => rw [hf] at h; dsimp only at h; cases h
    | some b =>
      rw [hf] at h
      dsimp only at h
      rcases List.mem_cons.mp hmem with rfl | hmem'
      · simp [hf]
      · cases hp : parseFilings b with
        | error e => rw [hp] at h; dsimp only at h; cases h
        | ok fs =>
          rw [hp] at h
          dsimp only at h
          cases hr : (fetchLoopT env rest).1 with
          | error e => rw [hr] at h; dsimp only [Except.map] at h; cases h
          | ok t' => exact ih t' hr name hmem'

/-- C2: an aggregated run with every fetch and parse succeeding and no
filters returns exactly the primary document's normalized records followed
by each overflow file's normalized records, in file-list order, with no
re-sorting and no further change. -/
theorem get_filings_concat_order (env : FetchEnv) (cik : String) (v : Int)
    (doc : PrimaryDoc) (main : List Filing) (g : String → List Filing)
    (hc : pyInt cik = .ok v)
    (hp : env.fetchPrimary (primaryUrl (fmt010d v)) = some doc)
    (hm : parseFilings doc.recent = .ok main)
    (hf : ∀ name ∈ doc.files, ∃ b, env.fetchFile (fileUrl name) = some b ∧
      parseFilings b = .ok (g name)) :
    getFilings env cik none none none none =
      .ok (main ++ (doc.files.map g).flatten) := by
  unfold getFilings getFilingsRaw
  simp only [hc, hp, hm, fetchLoopT_ok env g doc.files hf, Except.map]
  simp [filterStage_id]

/-- The parallel-array block used as the primary document's `recent` section
in the concrete fetch environment. -/
def blkPrimary : Block :=
  { accessionNumber := some ["0000320193-24-000201"]
    form := some ["10-K"]
    filingDate := some ["2024-01-02"]
    acceptanceDateTime := some ["2024-01-02T12:00:00.000Z"]
    size := some [1] }

/-- The parallel-array block of the single overflow file. -/
def blkOverflow : Block :=
  { accessionNumber := some ["0000320193-24-000202"]
    form := some ["8-K"]
    filingDate := some ["2024-01-03"]
    acceptanceDateTime := some ["2024-01-03T12:00:00.000Z"]
    size := some [1] }

/-- A primary submissions document with one overflow file reference. -/
def docW : PrimaryDoc :=
  { recent := blkPrimary, files := ["CIK0000320193-submissions-001.json"] }

/-- A fetch environment serving `docW` for CIK 320193 and its overflow file. -/
def envW : FetchEnv :=
  { fetchPrimary := fun u => if u = primaryUrl (fmt010d 320193) then some docW else none
    fetchFile := fun u =>
      if u = fileUrl "CIK0000320193-submissions-001.json" then some blkOverflow else none }

/-- A fetch environment in which every request fails. -/
def envNone : FetchEnv := { fetchPrimary := fun _ => none, fetchFile := fun _ => none }

/-- C2 witness: for `envW` the unfiltered result is the primary record
followed by the overflow record. -/
theorem get_filings_concat_order_witness :
    getFilings envW "320193" none none none none =
      .ok ([simpleFiling "0000320193-24-000201" "10-K" 2] ++
        (docW.files.map (fun _ => [simpleFiling "0000320193-24-000202" "8-K" 3])).flatten) ∧
    getFilings envW "320193" none none none none =
      .ok [simpleFiling "0000320193-24-000201" "10-K" 2,
           simpleFiling "0000320193-24-000202" "8-K" 3] := by
  have h := get_filings_concat_order envW "320193" 320193 docW
    [simpleFiling "0000320193-24-000201" "10-K" 2]
    (fun _ => [simpleFiling "0000320193-24-000202" "8-K" 3])
    rfl rfl rfl
    (by
      intro name hname
      have hn : name = "CIK0000320193-submissions-001.json" := by
        simpa [docW] using hname
      subst hn
      exact ⟨blkOverflow, rfl, rfl⟩)
  exact ⟨h, h.trans (by rfl)⟩

/-- C3: a returned filing list implies the identifier parsed, the primary
document was fetched, and every listed overflow file was fetched — no fetch
failure can yield a (partial or empty) success; and a failing primary fetch
propagates as that fetch's error. -/
theorem get_filings_fetch_failure (env : FetchEnv) (cik : String)
    (sd ed : Option NaiveDT) (forms : Option (List String)) (limit : Option Int) :
    (∀ l, getFilings env cik sd ed forms limit = .ok l →
      ∃ v doc, pyInt cik = .ok v ∧
        env.fetchPrimary (primaryUrl (fmt010d v)) = some doc ∧
        ∀ name ∈ doc.files, (env.fetchFile (fileUrl name)).isSome) ∧
    (∀ v, pyInt cik = .ok v → env.fetchPrimary (primaryUrl (fmt010d v)) = none →
      getFilings env cik sd ed forms limit =
        .error (.fetchError (primaryUrl (fmt010d v)))) := by
  constructor
  · intro l h
    unfold getFilings getFilingsRaw at h
    cases hc : pyInt cik with
    | error e => rw [hc] at h; dsimp only [Except.map] at h; cases h
    | ok v =>
      rw [hc] at h
      dsimp only at h
      cases hp : env.fetchPrimary (primaryUrl (fmt010d v)) with
      | none => rw [hp] at h; dsimp only [Except.map] at h; cases h
      | some doc =>
        rw [hp] at h
        dsimp only at h
        cases hm : parseFilings doc.recent with
        | error e => rw [hm] at h; dsimp only [Except.map] at h; cases h
        | ok main =>
          rw [hm] at h
          dsimp only at h
          cases hr : (fetchLoopT env doc.files).1 with
          | error e => rw [hr] at h; dsimp only [Except.map] at h; cases h
          | ok t => exact ⟨v, doc, rfl, hp, fetchLoopT_ok_inv env doc.files t hr⟩
  · intro v hc hp
    unfold getFilings getFilingsRaw
    simp only [hc, hp, Except.map]

/-- C3 witness: with every fetch succeeding the conclusion names the fetched
documents; with a failing primary fetch the error carries the primary URL. -/
theorem get_filings_fetch_failure_witness :
    (∃ v doc, pyInt "320193" = .ok v ∧
      envW.fetchPrimary (primaryUrl (fmt010d v)) = some doc ∧
      ∀ name ∈ doc.files, (envW.fetchFile (fileUrl name)).isSome) ∧
    getFilings envNone "320193" none none none none =
      .error (.fetchError (primaryUrl (fmt010d 320193))) :=
  ⟨(get_filings_fetch_failure envW "320193" none none none none).1
     [simpleFiling "0000320193-24-000201" "10-K" 2,
      simpleFiling "0000320193-24-000202" "8-K" 3] (by rfl),
   (get_filings_fetch_failure envNone "320193" none none none none).2 320193 rfl rfl⟩

theorem natDigitsCore_append : ∀ (fuel n : Nat) (acc : List Char),
    natDigitsCore n fuel acc = natDigitsCore n fuel [] ++ acc := by
  intro fuel
  induction fuel with
  | zero => intro n acc; cases n <;> rfl
  | succ fuel ih =>
    intro n acc
    cases n with
    | zero => rfl
    | succ m =>
      simp only [natDigitsCore]
      rw [ih ((m + 1) / 10) (dchar ((m + 1) % 10) :: acc),
        ih ((m + 1) / 10) [dchar ((m + 1) % 10)]]
      simp

theorem natDigitsCore_zero (fuel : Nat) : natDigitsCore 0 fuel [] = [] := by
  cases fuel <;> rfl

theorem decVal_snoc (xs : List Char) (c : Char) :
    decVal (xs ++ [c]) = decVal xs * 10 + dval c := by
  simp [decVal, List.foldl_append]

theorem decVal_natDigitsCore : ∀ (fuel n : Nat), n ≤ fuel →
    decVal (natDigitsCore n fuel []) = n := by
  intro fuel
  induction fuel with
  | zero =>
    intro n h
    interval_cases n
    rfl
  | succ fuel ih =>
    intro n h
    cases n with
    | zero => rw [natDigitsCore_zero]; rfl
    | succ m =>
      simp only [natDigitsCore]
      rw [natDigitsCore_append, decVal_snoc]
      have hle : (m + 1) / 10 ≤ fuel := by
        have := Nat.div_lt_self (Nat.succ_pos m) (by omega : 1 < 10)
        omega
      rw [ih ((m + 1) / 10) hle, dchar_dval (Nat.mod_lt _ (by omega))]
      omega

theorem natDigitsCore_len : ∀ (fuel n k : Nat), n ≤ fuel → n < 10 ^ k →
    (natDigitsCore n fuel []).length ≤ k := by
  intro fuel
  induction fuel with
  | zero =>
    intro n k h _
    interval_cases n
    simp [natDigitsCore]
  | succ fuel ih =>
    intro n k h hk
    cases n with
    | zero => simp [natDigitsCore_zero]
    | succ m =>
      cases k with
      | zero => simp at hk
      | succ j =>
        simp only [natDigitsCore]
        rw [natDigitsCore_append]
        simp only [List.length_append, List.length_cons, List.length_nil]
        have hle : (m + 1) / 10 ≤ fuel := by
          have := Nat.div_lt_self (Nat.succ_pos m) (by omega : 1 < 10)
          omega
        have hk2 : (m + 1) / 10 < 10 ^ j := by
          rw [Nat.div_lt_iff_lt_mul (by omega : 0 < 10)]
          calc m + 1 < 10 ^ (j + 1) := hk
            _ = 10 ^ j * 10 := by ring
        have := ih ((m + 1) / 10) j hle hk2
        omega

theorem natDigitsCore_digits : ∀ (fuel n : Nat) (c : Char),
    c ∈ natDigitsCore n fuel [] → isDig c = true := by
  intro fuel
  induction fuel with
  | zero =>
    intro n c hc
    cases n <;> simp [natDigitsCore] at hc
  | succ fuel ih =>
    intro n c hc
    cases n with
    | zero => rw [natDigitsCore_zero] at hc; simp at hc
    | succ m =>
      simp only [natDigitsCore] at hc
      rw [natDigitsCore_append] at hc
      rcases List.mem_append.mp hc with hc' | hc'
      · exact ih ((m + 1) / 10) c hc'
      · rw [List.mem_singleton] at hc'
        subst hc'
        exact dchar_isDig (Nat.mod_lt _ (by omega))

theorem natDigits_decVal (n : Nat) : decVal (natDigits n) = n := by
  unfold natDigits
  by_cases h : n = 0
  · subst h; rfl
  · rw [if_neg h]
    exact decVal_natDigitsCore n n le_rfl

theorem natDigits_digits (n : Nat) (c : Char) (hc : c ∈ natDigits n) : isDig c = true := by
  unfold natDigits at hc
  by_cases h : n = 0
  · subst h
    simp at hc
    subst hc
    rfl
  · rw [if_neg h] at hc
    exact natDigitsCore_digits n n c hc

theorem natDigits_len (n k : Nat) (hk : 0 < k) (h : n < 10 ^ k) :
    (natDigits n).length ≤ k := by
  unfold natDigits
  by_cases h0 : n = 0
  · subst h0; simpa using hk
  · rw [if_neg h0]
    exact natDigitsCore_len n n k le_rfl h

theorem decVal_zeros (k : Nat) (cs : List Char) :
    decVal (List.replicate k '0' ++ cs) = decVal cs := by
  induction k with
  | zero => rfl
  | succ j ih =>
    simp only [List.replicate_succ, List.cons_append]
    show decVal (List.replicate j '0' ++ cs) = decVal cs
    exact ih

/-- C5: a numeric registrant identifier with at most ten decimal digits is
coerced to exactly the ten-character zero-padded decimal string of its value
before the primary URL is requested (the first and only identifier-derived
URL in the request trace starts the trace); a non-numeric identifier raises
the input error with no request made at all. -/
theorem cik_normalization (env : FetchEnv) (cik : String) (sd ed : Option NaiveDT)
    (forms : Option (List String)) (limit : Option Int) :
    (∀ e, pyInt cik = .error e →
      getFilings env cik sd ed forms limit = .error .inputError ∧
      (getFilingsRaw env cik).2 = []) ∧
    (∀ v : Int, pyInt cik = .ok v → 0 ≤ v → v < 10 ^ 10 →
      (fmt010d v).length = 10 ∧
      (∀ c ∈ (fmt010d v).data, isDig c = true) ∧
      decVal (fmt010d v).data = v.toNat ∧
      (getFilingsRaw env cik).2.head? = some (primaryUrl (fmt010d v))) := by
  constructor
  · intro e he
    unfold getFilings getFilingsRaw
    rw [he]
    exact ⟨rfl, rfl⟩
  · intro v hv h0 h10
    have hnneg : ¬v < 0 := by omega
    have hpad : fmt010d v = ⟨leftPad '0' 10 (natDigits v.toNat)⟩ := by
      unfold fmt010d
      rw [if_neg hnneg]
    have hlen : (natDigits v.toNat).length ≤ 10 := by
      refine natDigits_len v.toNat 10 (by omega) ?_
      have : (10 : Int) ^ 10 = 10000000000 := by norm_num
      have : (10 : Nat) ^ 10 = 10000000000 := by norm_num
      omega
    refine ⟨?_, ?_, ?_, ?_⟩
    · rw [hpad]
      show (leftPad '0' 10 (natDigits v.toNat)).length = 10
      unfold leftPad
      simp only [List.length_append, List.length_replicate]
      omega
    · rw [hpad]
      intro c hc
      rcases List.mem_append.mp hc with hc' | hc'
      · rw [List.eq_of_mem_replicate hc']
        rfl
      · exact natDigits_digits _ c hc'
    · rw [hpad]
      show decVal (List.replicate _ '0' ++ natDigits v.toNat) = v.toNat
      rw [decVal_zeros, natDigits_decVal]
    · unfold getFilingsRaw
      rw [hv]
      dsimp only
      cases hp : env.fetchPrimary (primaryUrl (fmt010d v)) with
      | none => rfl
      | some doc =>
        dsimp only
        cases hm : parseFilings doc.recent with
        | error e => rfl
        | ok main => rfl

/-- C5 witness: `"320193"` normalizes to `"0000320193"` (ten digits, value
320193) and the first requested URL embeds it; `"not-a-cik"` raises the
input error before any request. -/
theorem cik_normalization_witness :
    ((fmt010d 320193).length = 10 ∧
      fmt010d 320193 = "0000320193" ∧
      decVal (fmt010d 320193).data = 320193 ∧
      (getFilingsRaw envW "320193").2.head? = some (primaryUrl (fmt010d 320193))) ∧
    (getFilings envW "not-a-cik" none none none none = .error .inputError ∧
      (getFilingsRaw envW "not-a-cik").2 = []) :=
  have h := (cik_normalization envW "320193" none none none none).2 320193 rfl
    (by decide) (by norm_num)
  ⟨⟨h.1, rfl, h.2.2.1, h.2.2.2⟩,
   (cik_normalization envW "not-a-cik" none none none none).1 .valueError rfl⟩

end Edgar
